import Mathlib

/-!
Verification of the `disarm` ARM-template expression parser and template
decoder (`src/lib.rs`) against its natural-language specification.

The embedding is a shallow one at the level of characters: Rust `&str`
values are modelled as `List Char` (byte indices and char indices agree on
the ASCII inputs exercised here), and every operation of the source that
can abort the process (`expect`, `todo!()`, out-of-range slicing) is made
explicit in the result type `Res` below.  The Rust function
`parse_expression` is recursive; the model makes the recursion structural
by threading a fuel argument (`parseF`), and the theorem
`parseF_not_stuck` below proves that fuel `input.length + 1` always
suffices, so `parse_expression` (which uses exactly that fuel) computes
the same tree of calls the Rust code performs.
-/

namespace Disarm

/-- Outcome of running a piece of the Rust code.

* `ok v`      — the code returned `Ok(v)`.
* `err m`     — the code returned `Err(e)` (a typed serde error; the
                message is abbreviated relative to serde's exact text).
* `panic m`   — the code panicked, aborting the process (`expect`,
                `todo!()`, slice out of range).  Rust's real panic message
                may carry indices; the model keeps a fixed abbreviation.
* `stuck`     — model artifact only: the fuel of `parseF` ran out.  The
                theorem `parseF_not_stuck` shows this never happens at the
                fuel `parse_expression` supplies. -/
inductive Res (α : Type) where
  | ok (val : α)
  | err (msg : String)
  | panic (msg : String)
  | stuck

/-- Propagate through `Res`, as Rust's `?`/`map` would. -/
def Res.map (f : α → β) : Res α → Res β
  | .ok v => .ok (f v)
  | .err m => .err m
  | .panic m => .panic m
  | .stuck => .stuck

/-- Sequencing on `Res`. -/
def Res.bind : Res α → (α → Res β) → Res β
  | .ok v, f => f v
  | .err m, _ => .err m
  | .panic m, _ => .panic m
  | .stuck, _ => .stuck

/-- Closed set of function names, from `enum FunctionName` in the source. -/
inductive FunctionName where
  | Concat
  | ResourceId
  | CopyIndex
  | Format
  | If
  | ResourceGroup

/-- From `struct ReferenceExpression` in the source. -/
structure ReferenceExpression where
  resource_name : List Char
  api_version : Option (List Char)

/-- From `enum LiteralValue` in the source.  The `Number` payload is Rust's
`f64`; no code path modelled here ever constructs or inspects it. -/
inductive LiteralValue where
  | String (s : List Char)
  | Number (n : Float)
  | Boolean (b : Bool)

/-- From `enum ArmExpression` in the source.  The Rust `Function` variant
carries a `FunctionExpression { name, arguments }` record; the record is
inlined into the constructor here so that the type is a plain nested
inductive. -/
inductive ArmExpression where
  | Literal (v : LiteralValue)
  | Function (name : FunctionName) (arguments : List ArmExpression)
  | Parameter (name : List Char)
  | Variable (name : List Char)
  | Reference (r : ReferenceExpression)
  | None

/-- Rust `value.starts_with(pat)` at char level. -/
def startsWith : List Char → List Char → Bool
  | _, [] => true
  | [], _ :: _ => false
  | c :: cs, p :: ps => c = p && startsWith cs ps

/-- Rust `value.find(c)` (index of first occurrence). -/
def rustFind : List Char → Char → Option Nat
  | [], _ => Option.none
  | a :: rest, c => if a = c then some 0 else (rustFind rest c).map (· + 1)

/-- Rust `value.rfind(c)` (index of last occurrence). -/
def rustRfind (s : List Char) (c : Char) : Option Nat :=
  (rustFind s.reverse c).map (fun i => s.length - 1 - i)

/-- Rust slice `&s[a..b]`.  Out-of-range slicing panics, exactly as in
Rust (whose message carries the offending indices; abbreviated here). -/
def rustSlice (s : List Char) (a b : Nat) : Res (List Char) :=
  if a ≤ b ∧ b ≤ s.length then .ok ((s.drop a).take (b - a))
  else .panic ("slice index out of range")

/-- Rust `str::split(",")`: split at every comma; no nesting or quote
tracking.  `[]` input yields `[[]]`, as Rust's split yields `[""]`. -/
def splitOnComma : List Char → List (List Char)
  | [] => [[]]
  | c :: rest =>
    match splitOnComma rest with
    | [] => [[]]
    | p :: ps => if c = ',' then [] :: p :: ps else (c :: p) :: ps

/-- Rust `str::trim` (char-level whitespace). -/
def trim (l : List Char) : List Char :=
  ((l.dropWhile Char.isWhitespace).reverse.dropWhile Char.isWhitespace).reverse

/-- The `args.iter().map(|arg| parse_expression(arg).expect("parseable")).collect()`
loop of the source, abstracted over the recursive call `p`.  An inner
`Err` would panic through `expect` (it never occurs: the source never
builds an `Err`); an inner panic aborts the whole call. -/
def parseArgsWith (p : List Char → Res ArmExpression) :
    List (List Char) → Res (List ArmExpression)
  | [] => .ok []
  | a :: rest =>
    match p a with
    | .ok e =>
      match parseArgsWith p rest with
      | .ok es => .ok (e :: es)
      | .err m => .err m
      | .panic m => .panic m
      | .stuck => .stuck
    | .err _ => .panic ("parseable")
    | .panic m => .panic m
    | .stuck => .stuck

/-- The `value.starts_with("[")` arm of the source's match: find the
first `(` and last `)` (panicking through `expect` when absent, in that
order), slice out the function name and argument text, naively
comma-split and trim the arguments, parse each argument with the
recursive call `recur`, and finally match the function name against the
closed set, hitting `todo!()` — a panic — on any other name.  Factored
out of `parseF` only to keep each definition small; the code is the
source's arm verbatim. -/
def parseBracketBranch (recur : List Char → Res ArmExpression)
    (value : List Char) : Res ArmExpression :=
  match rustFind value '(' with
  | Option.none => .panic ("opening parenthesis")
  | some first_opening_parenthesis =>
    match rustRfind value ')' with
    | Option.none => .panic ("closing bracket")
    | some last_closing_parenthesis =>
      (rustSlice value 1 first_opening_parenthesis).bind fun function_name_str =>
      (rustSlice value (first_opening_parenthesis + 1) last_closing_parenthesis).bind
        fun args_str =>
      let args := (splitOnComma args_str).map trim
      (parseArgsWith recur args).bind fun parsed_args =>
      if function_name_str = ("format".data) then
        .ok (.Function .Format parsed_args)
      else if function_name_str = ("concat".data) then
        .ok (.Function .Concat parsed_args)
      else if function_name_str = ("copyIndex".data) then
        .ok (.Function .CopyIndex parsed_args)
      else if function_name_str = ("resourceId".data) then
        .ok (.Function .ResourceId parsed_args)
      else if function_name_str = ("if".data) then
        .ok (.Function .If parsed_args)
      else if function_name_str = ("resourceGroup".data) then
        .ok (.Function .ResourceGroup parsed_args)
      else .panic ("not yet implemented")

/-- Fuel-indexed model of `fn parse_expression` from the source, clause by
clause in the source's match order.  (The source's `dbg!(value)` only
prints to stderr and is dropped.)  The fuel bounds the recursion depth;
`parseF_not_stuck` proves depth `input.length + 1` always suffices. -/
def parseF : Nat → List Char → Res ArmExpression
  | 0, _ => .stuck
  | fuel + 1, value =>
    if value = [] then .ok .None
    else if startsWith value ("[variables(".data) then
      match rustSlice value 12 (value.length - 3) with
      | .ok inner => .ok (.Variable inner)
      | .err m => .err m
      | .panic m => .panic m
      | .stuck => .stuck
    else if startsWith value ("variables(".data) then
      match rustSlice value 11 (value.length - 2) with
      | .ok inner => .ok (.Variable inner)
      | .err m => .err m
      | .panic m => .panic m
      | .stuck => .stuck
    else if startsWith value ("[parameters(".data) then
      match rustSlice value 13 (value.length - 3) with
      | .ok inner => .ok (.Parameter inner)
      | .err m => .err m
      | .panic m => .panic m
      | .stuck => .stuck
    else if startsWith value ("parameters(".data) then
      match rustSlice value 12 (value.length - 2) with
      | .ok inner => .ok (.Parameter inner)
      | .err m => .err m
      | .panic m => .panic m
      | .stuck => .stuck
    else if startsWith value ("[".data) then
      parseBracketBranch (parseF fuel) value
    else if startsWith value ("'".data) then
      match rustSlice value 1 (value.length - 1) with
      | .ok inner => .ok (.Literal (.String inner))
      | .err m => .err m
      | .panic m => .panic m
      | .stuck => .stuck
    else .ok (.Literal (.String value))

/-- The model of `fn parse_expression`: run `parseF` with fuel exceeding
the input length, which `parseF_not_stuck` proves is always enough
(every recursive call of the source is on a strictly shorter string). -/
def parse_expression (value : List Char) : Res ArmExpression :=
  parseF (value.length + 1) value

/-- Nested test input: `nestS n` wraps `'a'` in `n` levels of `[if(...)]`
(each level is one recursive `parse_expression` call in the source). -/
def nestS : Nat → List Char
  | 0 => "'a'".data
  | n + 1 => "[if(".data ++ nestS n ++ ")]".data

/-- The AST the source builds for `nestS n`. -/
def nestAST : Nat → ArmExpression
  | 0 => .Literal (.String ("a".data))
  | n + 1 => .Function .If [nestAST n]

/-- Whether a run ran out of model fuel (never happens at the fuel
`parse_expression` supplies; see `parseF_not_stuck`). -/
def Res.isStuck : Res α → Bool
  | .stuck => true
  | _ => false

/-- Whether a parse returned the `Reference` variant. -/
def Res.returnsReference : Res ArmExpression → Bool
  | .ok (.Reference _) => true
  | _ => false

/-- Whether a parse returned a `Literal(Boolean(_))` at top level. -/
def Res.isBooleanLiteral : Res ArmExpression → Bool
  | .ok (.Literal (.Boolean _)) => true
  | _ => false

mutual

/-- No `Number` or `Boolean` literal occurs anywhere in the expression. -/
def numBoolFree : ArmExpression → Bool
  | .Literal (.Number _) => false
  | .Literal (.Boolean _) => false
  | .Function _ args => numBoolFreeList args
  | _ => true

/-- List version of `numBoolFree`. -/
def numBoolFreeList : List ArmExpression → Bool
  | [] => true
  | e :: es => numBoolFree e && numBoolFreeList es

end

/-- `numBoolFree` lifted to run outcomes. -/
def Res.numBoolFreeRes : Res ArmExpression → Bool
  | .ok e => numBoolFree e
  | _ => true

/-! ## The template data model and its serde decoding

The JSON codec is external to the source (serde_json); what the source
contributes is the derived `Deserialize` structure: which fields exist,
which are required, which are renamed, and that every `ArmExpression`
field routes its raw string through `parse_expression`
(`deserialize_str` with a visitor whose only method is `visit_str`).
The model below reproduces that derived structure over a plain JSON
value tree: each struct decoder walks the object's fields in document
order, filling one slot per known field (erring on a duplicate,
ignoring unknown keys), and checks required slots at the end, exactly
as the derived `visit_map` does.  serde's exact error strings are
abbreviated. -/

mutual

/-- A parsed JSON document (string payloads at char level, like the rest
of the model).  The `num` payload is never inspected by any decoder
here: a JSON number is a type error in every field of this schema. -/
inductive Json where
  | null
  | bool (b : Bool)
  | num (n : Int)
  | str (s : List Char)
  | arr (elements : JsonList)
  | obj (fields : JsonFields)

/-- Elements of a JSON array, in document order. -/
inductive JsonList where
  | nil
  | cons (head : Json) (tail : JsonList)

/-- Fields of a JSON object, in document order. -/
inductive JsonFields where
  | nil
  | cons (key : List Char) (val : Json) (tail : JsonFields)

end

/-- `Deserialize for ArmExpression`: `deserialize_str` with a visitor
implementing only `visit_str`, which calls `parse_expression`.  Any
non-string JSON value is a serde `invalid type` error. -/
def decodeArmExpression : Json → Res ArmExpression
  | .str s => parse_expression s
  | _ => .err ("invalid type: expected a valid ARM expression string")

/-- Derived decoding of a plain Rust `String` field. -/
def decodeJString : Json → Res (List Char)
  | .str s => .ok s
  | _ => .err ("invalid type: expected a string")

/-- Decoding of `Option<T>`: JSON `null` is `None`, anything else is
`Some` of the inner decode. -/
def decodeOptionWith (dv : Json → Res α) : Json → Res (Option α)
  | .null => .ok Option.none
  | v => (dv v).map some

/-- Byte-lexicographic `<` on Rust strings (the `Ord` used by `BTreeMap`;
on UTF-8, byte order and code-point order agree). -/
def rustStrLt : List Char → List Char → Bool
  | [], [] => false
  | [], _ :: _ => true
  | _ :: _, [] => false
  | a :: as2, b :: bs =>
    if a.val < b.val then true
    else if b.val < a.val then false
    else rustStrLt as2 bs

/-- `BTreeMap::insert`: keep entries sorted by key, replacing an equal
key. -/
def btreeInsert (k : List Char) (v : α) : List (List Char × α) → List (List Char × α)
  | [] => [(k, v)]
  | (k2, v2) :: rest =>
    if k = k2 then (k, v) :: rest
    else if rustStrLt k k2 then (k, v) :: (k2, v2) :: rest
    else (k2, v2) :: btreeInsert k v rest

/-- serde's map visitor for `BTreeMap<String, V>`: decode each entry in
document order and insert it (so a repeated key silently keeps the last
binding, as `BTreeMap::insert` replaces). -/
def decodeMapEntries (dv : Json → Res α) (acc : List (List Char × α)) :
    JsonFields → Res (List (List Char × α))
  | .nil => .ok acc
  | .cons k jv rest =>
    match dv jv with
    | .ok v => decodeMapEntries dv (btreeInsert k v acc) rest
    | .err m => .err m
    | .panic m => .panic m
    | .stuck => .stuck

/-- `Deserialize for BTreeMap<String, V>` (the map modelled as its sorted
entry list, which is how two `BTreeMap`s compare equal). -/
def decodeBTreeMap (dv : Json → Res α) : Json → Res (List (List Char × α))
  | .obj fields => decodeMapEntries dv [] fields
  | _ => .err ("invalid type: expected a map")

/-- Decode the elements of a `Vec<T>` (first failure wins, as serde's
sequence visitor propagates it). -/
def decodeElemsWith (dv : Json → Res α) : JsonList → Res (List α)
  | .nil => .ok []
  | .cons x rest =>
    match dv x with
    | .ok v =>
      match decodeElemsWith dv rest with
      | .ok vs => .ok (v :: vs)
      | .err m => .err m
      | .panic m => .panic m
      | .stuck => .stuck
    | .err m => .err m
    | .panic m => .panic m
    | .stuck => .stuck

/-- `Vec<T>` from a JSON value: must be an array. -/
def decodeVecWith (dv : Json → Res α) : Json → Res (List α)
  | .arr xs => decodeElemsWith dv xs
  | _ => .err ("invalid type: expected a sequence")

/-- From `struct ArmParameter` in the source: `type: String` and
`default_value: Option<ArmExpression>` renamed to JSON key
`defaultValue`. -/
structure ArmParameter where
  type : List Char
  default_value : Option ArmExpression

/-- Field walk of the derived `Deserialize for ArmParameter` (`ty` and
`dv` are the visitor's slots for `type` and `defaultValue`). -/
def decodeParameterFields (ty : Option (List Char))
    (dv : Option (Option ArmExpression)) : JsonFields → Res ArmParameter
  | .nil =>
    match ty with
    | Option.none => .err ("missing field type")
    | some t => .ok ⟨t, dv.getD Option.none⟩
  | .cons k v rest =>
    if k = ("type".data) then
      match ty with
      | some _ => .err ("duplicate field type")
      | Option.none =>
        (decodeJString v).bind fun t => decodeParameterFields (some t) dv rest
    else if k = ("defaultValue".data) then
      match dv with
      | some _ => .err ("duplicate field defaultValue")
      | Option.none =>
        (decodeOptionWith decodeArmExpression v).bind fun d =>
          decodeParameterFields ty (some d) rest
    else decodeParameterFields ty dv rest

/-- Derived `Deserialize for ArmParameter`: `type` required,
`defaultValue` optional (missing means `None`), unknown keys ignored. -/
def decodeArmParameter : Json → Res ArmParameter
  | .obj fields => decodeParameterFields Option.none Option.none fields
  | _ => .err ("invalid type: expected struct ArmParameter")

/-- From `struct ArmResource` in the source.  Note the source declares
`depends_on: Option<Vec<Box<ArmResource>>>` — a sequence of *embedded
full resources* (`Box` is ownership only and is transparent here) — and
gives the field no serde rename, so its JSON key is `depends_on`. -/
inductive ArmResource where
  | mk (name : ArmExpression) (type : List Char) (api_version : List Char)
      (depends_on : Option (List ArmResource))

mutual

/-- Derived `Deserialize for ArmResource`: `name` (an expression),
`type`, `apiVersion` (rename of `api_version`) required; `depends_on`
optional and, when present, an array each of whose elements is decoded
as a full `ArmResource` — that recursion is what embeds dependency
resources inside the dependent one. -/
def decodeArmResource : Json → Res ArmResource
  | .obj fields =>
    decodeResourceFields Option.none Option.none Option.none Option.none fields
  | _ => .err ("invalid type: expected struct ArmResource")

/-- Field walk of the derived `Deserialize for ArmResource` (one slot
per declared field, in document order). -/
def decodeResourceFields (nm : Option ArmExpression) (ty : Option (List Char))
    (av : Option (List Char)) (deps : Option (Option (List ArmResource))) :
    JsonFields → Res ArmResource
  | .nil =>
    match nm with
    | Option.none => .err ("missing field name")
    | some nm2 =>
      match ty with
      | Option.none => .err ("missing field type")
      | some ty2 =>
        match av with
        | Option.none => .err ("missing field apiVersion")
        | some av2 => .ok (.mk nm2 ty2 av2 (deps.getD Option.none))
  | .cons k v rest =>
    if k = ("name".data) then
      match nm with
      | some _ => .err ("duplicate field name")
      | Option.none =>
        (decodeArmExpression v).bind fun e =>
          decodeResourceFields (some e) ty av deps rest
    else if k = ("type".data) then
      match ty with
      | some _ => .err ("duplicate field type")
      | Option.none =>
        (decodeJString v).bind fun t =>
          decodeResourceFields nm (some t) av deps rest
    else if k = ("apiVersion".data) then
      match av with
      | some _ => .err ("duplicate field apiVersion")
      | Option.none =>
        (decodeJString v).bind fun a =>
          decodeResourceFields nm ty (some a) deps rest
    else if k = ("depends_on".data) then
      match deps with
      | some _ => .err ("duplicate field depends_on")
      | Option.none =>
        (decodeDependsOn v).bind fun d =>
          decodeResourceFields nm ty av (some d) rest
    else decodeResourceFields nm ty av deps rest

/-- `Option<Vec<Box<ArmResource>>>` from a JSON value: `null` is `None`,
an array decodes each element as a full `ArmResource`. -/
def decodeDependsOn : Json → Res (Option (List ArmResource))
  | .null => .ok Option.none
  | .arr xs =>
    match decodeResourceElems xs with
    | .ok vs => .ok (some vs)
    | .err m => .err m
    | .panic m => .panic m
    | .stuck => .stuck
  | _ => .err ("invalid type: expected a sequence")

/-- Elements of a `Vec<Box<ArmResource>>`, each a full resource decode
(first failure wins). -/
def decodeResourceElems : JsonList → Res (List ArmResource)
  | .nil => .ok []
  | .cons x rest =>
    match decodeArmResource x with
    | .ok v =>
      match decodeResourceElems rest with
      | .ok vs => .ok (v :: vs)
      | .err m => .err m
      | .panic m => .panic m
      | .stuck => .stuck
    | .err m => .err m
    | .panic m => .panic m
    | .stuck => .stuck

end

/-- From `struct ArmOutput` in the source. -/
structure ArmOutput where
  name : List Char
  value : ArmExpression

/-- Field walk of the derived `Deserialize for ArmOutput`. -/
def decodeOutputFields (nm : Option (List Char)) (vl : Option ArmExpression) :
    JsonFields → Res ArmOutput
  | .nil =>
    match nm with
    | Option.none => .err ("missing field name")
    | some nm2 =>
      match vl with
      | Option.none => .err ("missing field value")
      | some vl2 => .ok ⟨nm2, vl2⟩
  | .cons k v rest =>
    if k = ("name".data) then
      match nm with
      | some _ => .err ("duplicate field name")
      | Option.none =>
        (decodeJString v).bind fun s => decodeOutputFields (some s) vl rest
    else if k = ("value".data) then
      match vl with
      | some _ => .err ("duplicate field value")
      | Option.none =>
        (decodeArmExpression v).bind fun e => decodeOutputFields nm (some e) rest
    else decodeOutputFields nm vl rest

/-- Derived `Deserialize for ArmOutput`. -/
def decodeArmOutput : Json → Res ArmOutput
  | .obj fields => decodeOutputFields Option.none Option.none fields
  | _ => .err ("invalid type: expected struct ArmOutput")

/-- From `struct ArmTemplate` in the source: optional `parameters` and
`variables` maps, required `resources` vector, optional `outputs`.  The
Rust field `variables` keeps its name via guillemets (plain `variables`
is a reserved legacy command token in Lean). -/
structure ArmTemplate where
  parameters : Option (List (List Char × ArmParameter))
  «variables» : Option (List (List Char × ArmExpression))
  resources : List ArmResource
  outputs : Option (List ArmOutput)

/-- Field walk of the derived `Deserialize for ArmTemplate`. -/
def decodeTemplateFields (ps : Option (Option (List (List Char × ArmParameter))))
    (vs : Option (Option (List (List Char × ArmExpression))))
    (rs : Option (List ArmResource)) (os : Option (Option (List ArmOutput))) :
    JsonFields → Res ArmTemplate
  | .nil =>
    match rs with
    | Option.none => .err ("missing field resources")
    | some rs2 =>
      .ok ⟨ps.getD Option.none, vs.getD Option.none, rs2, os.getD Option.none⟩
  | .cons k v rest =>
    if k = ("parameters".data) then
      match ps with
      | some _ => .err ("duplicate field parameters")
      | Option.none =>
        (decodeOptionWith (decodeBTreeMap decodeArmParameter) v).bind fun p =>
          decodeTemplateFields (some p) vs rs os rest
    else if k = ("variables".data) then
      match vs with
      | some _ => .err ("duplicate field variables")
      | Option.none =>
        (decodeOptionWith (decodeBTreeMap decodeArmExpression) v).bind fun w =>
          decodeTemplateFields ps (some w) rs os rest
    else if k = ("resources".data) then
      match rs with
      | some _ => .err ("duplicate field resources")
      | Option.none =>
        (decodeVecWith decodeArmResource v).bind fun r =>
          decodeTemplateFields ps vs (some r) os rest
    else if k = ("outputs".data) then
      match os with
      | some _ => .err ("duplicate field outputs")
      | Option.none =>
        (decodeOptionWith (decodeVecWith decodeArmOutput) v).bind fun o =>
          decodeTemplateFields ps vs rs (some o) rest
    else decodeTemplateFields ps vs rs os rest

/-- Derived `Deserialize for ArmTemplate`: the `Option` fields default to
`None` when their key is missing; `resources` is required (`Vec` has no
serde default), so a document without a `resources` key is a
missing-field error. -/
def decodeArmTemplate : Json → Res ArmTemplate
  | .obj fields =>
    decodeTemplateFields Option.none Option.none Option.none Option.none fields
  | _ => .err ("invalid type: expected struct ArmTemplate")

/-- The claim C6 document `{"parameters": {"functionAppName": {"type":
"string"}}}` (no `variables`, `resources` or `outputs` keys). -/
def c6doc : Json :=
  .obj (.cons ("parameters".data)
    (.obj (.cons ("functionAppName".data)
      (.obj (.cons ("type".data) (.str ("string".data)) .nil)) .nil)) .nil)

/-- The C6 document amended with an explicit `"resources": []` key. -/
def c6docWithResources : Json :=
  .obj (.cons ("parameters".data)
    (.obj (.cons ("functionAppName".data)
      (.obj (.cons ("type".data) (.str ("string".data)) .nil)) .nil))
    (.cons ("resources".data) (.arr .nil) .nil))

/-- A resource JSON object with no `depends_on` key:
`{"name": "r0", "type": "t", "apiVersion": "v"}`. -/
def resourceJson0 : Json :=
  .obj (.cons ("name".data) (.str ("r0".data))
    (.cons ("type".data) (.str ("t".data))
      (.cons ("apiVersion".data) (.str ("v".data)) .nil)))

/-- A resource JSON object whose `depends_on` array holds a *full
resource object* (the shape the source's type demands). -/
def resourceJsonEmbedded : Json :=
  .obj (.cons ("name".data) (.str ("r1".data))
    (.cons ("type".data) (.str ("t".data))
      (.cons ("apiVersion".data) (.str ("v".data))
        (.cons ("depends_on".data) (.arr (.cons resourceJson0 .nil)) .nil))))

/-- A resource JSON object whose `depends_on` array holds a *dependency
identifier string* (the shape the spec demands). -/
def resourceJsonIdentifier : Json :=
  .obj (.cons ("name".data) (.str ("r1".data))
    (.cons ("type".data) (.str ("t".data))
      (.cons ("apiVersion".data) (.str ("v".data))
        (.cons ("depends_on".data)
          (.arr (.cons (.str ("[resourceId('x')]".data)) .nil)) .nil))))

/-! ## Theorems -/

/-- If `v` starts with `p ++ q` it starts with `p`. -/
theorem startsWith_of_append {v p q : List Char}
    (h : startsWith v (p ++ q) = true) : startsWith v p = true := by
  induction p generalizing v with
  | nil => simp [startsWith]
  | cons c cs ih =>
    cases v with
    | nil => simp [startsWith] at h
    | cons a rest =>
      simp only [List.cons_append, startsWith, Bool.and_eq_true] at h ⊢
      exact ⟨h.1, ih h.2⟩

/-- Any extension of `p` starts with `p`. -/
theorem startsWith_append_self (p x : List Char) :
    startsWith (p ++ x) p = true := by
  induction p with
  | nil => cases x <;> simp [startsWith]
  | cons c cs ih => simp [startsWith, ih]

/-- What a successful Rust slice tells us about its bounds and length. -/
theorem rustSlice_ok {s r : List Char} {a b : Nat}
    (h : rustSlice s a b = .ok r) :
    r.length = b - a ∧ a ≤ b ∧ b ≤ s.length := by
  unfold rustSlice at h
  split at h
  next hc =>
    cases h
    refine ⟨?_, hc.1, hc.2⟩
    simp [List.length_take, List.length_drop]
    omega
  next => cases h

/-- Every piece produced by the comma split is no longer than the input. -/
theorem splitOnComma_piece_length :
    ∀ (l : List Char), ∀ piece ∈ splitOnComma l, piece.length ≤ l.length := by
  intro l
  induction l with
  | nil => intro piece h; simp [splitOnComma] at h; simp [h]
  | cons c rest ih =>
    intro piece h
    simp only [splitOnComma] at h
    cases hs : splitOnComma rest with
    | nil => rw [hs] at h; simp at h; simp [h]
    | cons p ps =>
      rw [hs] at h
      have hp : p.length ≤ rest.length := ih p (by rw [hs]; exact List.mem_cons_self p ps)
      by_cases hc : c = ','
      · simp [hc] at h
        rcases h with h | h | h
        · simp [h]
        · subst h; simp; omega
        · have := ih piece (by rw [hs]; exact List.mem_cons_of_mem p h)
          simp; omega
      · simp [hc] at h
        rcases h with h | h
        · subst h; simp; omega
        · have := ih piece (by rw [hs]; exact List.mem_cons_of_mem p h)
          simp; omega

/-- Trimming never lengthens a string. -/
theorem trim_length (l : List Char) : (trim l).length ≤ l.length := by
  unfold trim
  calc ((l.dropWhile Char.isWhitespace).reverse.dropWhile Char.isWhitespace).reverse.length
      = ((l.dropWhile Char.isWhitespace).reverse.dropWhile Char.isWhitespace).length := by
        simp
    _ ≤ (l.dropWhile Char.isWhitespace).reverse.length :=
        (List.dropWhile_sublist _).length_le
    _ = (l.dropWhile Char.isWhitespace).length := by simp
    _ ≤ l.length := (List.dropWhile_sublist _).length_le

/-- If the element parser never runs out of fuel on the given arguments,
neither does the argument loop. -/
theorem parseArgsWith_not_stuck {p : List Char → Res ArmExpression}
    {args : List (List Char)} (h : ∀ a ∈ args, (p a).isStuck = false) :
    (parseArgsWith p args).isStuck = false := by
  induction args with
  | nil => simp [parseArgsWith, Res.isStuck]
  | cons a rest ih =>
    have ha := h a (List.mem_cons_self a rest)
    have hrest := ih (fun x hx => h x (List.mem_cons_of_mem a hx))
    simp only [parseArgsWith]
    cases hpa : p a with
    | ok e =>
      cases hr : parseArgsWith p rest with
      | ok es => simp [Res.isStuck]
      | err m => simp [Res.isStuck]
      | panic m => simp [Res.isStuck]
      | stuck => rw [hr] at hrest; simp [Res.isStuck] at hrest
    | err m => simp [Res.isStuck]
    | panic m => simp [Res.isStuck]
    | stuck => rw [hpa] at ha; simp [Res.isStuck] at ha


/-- A Rust slice either succeeds or panics; it never exhausts fuel. -/
theorem rustSlice_not_stuck (s : List Char) (a b : Nat) :
    (rustSlice s a b).isStuck = false := by
  unfold rustSlice
  split <;> simp [Res.isStuck]

/-- The bracket arm never exhausts fuel, provided the recursive parser
does not on arguments shorter than the whole input (every argument is a
trimmed piece of a strict substring of `value`). -/
theorem parseBracketBranch_not_stuck {recur : List Char → Res ArmExpression}
    {value : List Char}
    (h : ∀ a : List Char, a.length + 1 ≤ value.length → (recur a).isStuck = false) :
    (parseBracketBranch recur value).isStuck = false := by
  unfold parseBracketBranch
  cases hf : rustFind value '(' with
  | none => simp [Res.isStuck]
  | some fp =>
    cases hr : rustRfind value ')' with
    | none => simp [Res.isStuck]
    | some lcp =>
      dsimp only
      cases h1 : rustSlice value 1 fp with
      | err m => simp [Res.bind, Res.isStuck]
      | panic m => simp [Res.bind, Res.isStuck]
      | stuck =>
        have h2 := rustSlice_not_stuck value 1 fp
        rw [h1] at h2
        simp [Res.isStuck] at h2
      | ok fns =>
        simp only [Res.bind]
        cases h2 : rustSlice value (fp + 1) lcp with
        | err m => simp [Res.bind, Res.isStuck]
        | panic m => simp [Res.bind, Res.isStuck]
        | stuck =>
          have h3 := rustSlice_not_stuck value (fp + 1) lcp
          rw [h2] at h3
          simp [Res.isStuck] at h3
        | ok args_str =>
          simp only [Res.bind]
          have hargs : ∀ a ∈ (splitOnComma args_str).map trim,
              (recur a).isStuck = false := by
            intro a ha
            rcases List.mem_map.mp ha with ⟨piece, hpiece, htrim⟩
            have hp := splitOnComma_piece_length args_str piece hpiece
            have ht : a.length ≤ piece.length := by
              rw [← htrim]; exact trim_length piece
            rcases rustSlice_ok h2 with ⟨hl, hab, hbs⟩
            rcases rustSlice_ok h1 with ⟨hl1, hab1, hbs1⟩
            exact h a (by omega)
          cases h3 : parseArgsWith recur ((splitOnComma args_str).map trim) with
          | err m => simp [Res.bind, Res.isStuck]
          | panic m => simp [Res.bind, Res.isStuck]
          | stuck =>
            have h4 := parseArgsWith_not_stuck hargs
            rw [h3] at h4
            simp [Res.isStuck] at h4
          | ok parsed_args =>
            simp only [Res.bind]
            repeat' split
            all_goals simp [Res.isStuck]

/-- Fuel adequacy: with fuel exceeding the input length, the model never
runs out — which is exactly the statement that every recursive call of
the source's `parse_expression` is on a strictly shorter string, so its
recursion depth is bounded by the input length. -/
theorem parseF_not_stuck : ∀ (fuel : Nat) (value : List Char),
    value.length < fuel → (parseF fuel value).isStuck = false := by
  intro fuel
  induction fuel with
  | zero => intro value h; exact absurd h (by omega)
  | succ f ih =>
    intro value hlen
    rw [parseF]
    split
    · simp [Res.isStuck]
    next h0 =>
    split
    next =>
      cases h1 : rustSlice value 12 (value.length - 3) with
      | ok inner => simp [Res.isStuck]
      | err m => simp [Res.isStuck]
      | panic m => simp [Res.isStuck]
      | stuck =>
        have h2 := rustSlice_not_stuck value 12 (value.length - 3)
        rw [h1] at h2
        simp [Res.isStuck] at h2
    next =>
    split
    next =>
      cases h1 : rustSlice value 11 (value.length - 2) with
      | ok inner => simp [Res.isStuck]
      | err m => simp [Res.isStuck]
      | panic m => simp [Res.isStuck]
      | stuck =>
        have h2 := rustSlice_not_stuck value 11 (value.length - 2)
        rw [h1] at h2
        simp [Res.isStuck] at h2
    next =>
    split
    next =>
      cases h1 : rustSlice value 13 (value.length - 3) with
      | ok inner => simp [Res.isStuck]
      | err m => simp [Res.isStuck]
      | panic m => simp [Res.isStuck]
      | stuck =>
        have h2 := rustSlice_not_stuck value 13 (value.length - 3)
        rw [h1] at h2
        simp [Res.isStuck] at h2
    next =>
    split
    next =>
      cases h1 : rustSlice value 12 (value.length - 2) with
      | ok inner => simp [Res.isStuck]
      | err m => simp [Res.isStuck]
      | panic m => simp [Res.isStuck]
      | stuck =>
        have h2 := rustSlice_not_stuck value 12 (value.length - 2)
        rw [h1] at h2
        simp [Res.isStuck] at h2
    next =>
    split
    next hbr =>
      apply parseBracketBranch_not_stuck
      intro a ha
      exact ih a (by omega)
    next =>
    split
    next =>
      cases h1 : rustSlice value 1 (value.length - 1) with
      | ok inner => simp [Res.isStuck]
      | err m => simp [Res.isStuck]
      | panic m => simp [Res.isStuck]
      | stuck =>
        have h2 := rustSlice_not_stuck value 1 (value.length - 1)
        rw [h1] at h2
        simp [Res.isStuck] at h2
    next => simp [Res.isStuck]


/-- C1: the claim says the parser is total and never panics, returning a
typed error on malformed input such as a lone `[` or a lone single
quote.  The code does the opposite: on `"["` the `value.find("(")`
lookup fails and `.expect("opening parenthesis")` aborts the process,
and on `"'"` the slice `value[1..0]` is out of range and panics.  This
theorem evaluates the model at exactly those two failing inputs. -/
theorem c1_malformed_input_panics :
    parse_expression ("[".data) = .panic ("opening parenthesis") ∧
    parse_expression ("'".data) = .panic ("slice index out of range") :=
  ⟨rfl, rfl⟩

/-- C2: the claim says top-level commas are the only argument boundaries
and `"[format('{0},{1}', 'x,y', 1)]"` yields exactly 3 arguments.  The
code splits naively on every comma (`args_str.split(",")`), so the
commas inside `'{0},{1}'` and `'x,y'` also split, and the call parses
to a `Format` node with five mangled arguments instead of three. -/
theorem c2_naive_comma_split_yields_five_args :
    parse_expression ("[format('{0},{1}', 'x,y', 1)]".data) =
      .ok (.Function .Format
        [.Literal (.String ("\x7b0".data)), .Literal (.String ("\x7b1\x7d'".data)),
         .Literal (.String ("".data)), .Literal (.String ("y'".data)),
         .Literal (.String ("1".data))]) :=
  rfl

/-- C4: the claim says an unknown function name yields the typed error
`UnknownFunction(name)` and never aborts the process.  The code has no
such error type at all: the catch-all arm of its function-name match is
`todo!()`, which panics (aborting the process) with Rust's standard
"not yet implemented" message.  This theorem evaluates the model at the
claim's own example input. -/
theorem c4_unknown_function_hits_todo_panic :
    parse_expression ("[notAFunction('x')]".data) = .panic ("not yet implemented") :=
  rfl

/-- C5: the claim says `depends_on` entries decode as dependency
identifiers and never as embedded full resource objects.  The source
declares `depends_on: Option<Vec<Box<ArmResource>>>`, so decoding a
`depends_on` array whose element is a full resource object succeeds and
embeds that entire resource, while a dependency-identifier string entry
(`"[resourceId('x')]"`) is a type error. -/
theorem c5_depends_on_embeds_full_resources :
    decodeArmResource resourceJsonEmbedded =
      .ok (.mk (.Literal (.String ("r1".data))) ("t".data) ("v".data)
        (some [.mk (.Literal (.String ("r0".data))) ("t".data) ("v".data)
          Option.none])) ∧
    decodeArmResource resourceJsonIdentifier =
      .err ("invalid type: expected struct ArmResource") :=
  ⟨rfl, rfl⟩

/-- C6 counterexample: the claim says the document
`{"parameters": {"functionAppName": {"type": "string"}}}` — with no
`resources` key — decodes successfully.  `resources: Vec<ArmResource>`
is a required field of the derived `Deserialize`, so the decode fails
with a missing-field error instead. -/
theorem c6_missing_resources_key_fails :
    decodeArmTemplate c6doc = .err ("missing field resources") :=
  rfl

/-- C6 (amended): with an explicit `"resources": []` added, the document
decodes to an `ArmTemplate` whose `parameters` map is exactly
`{"functionAppName": {type: "string", default_value: None}}`, whose
`variables` is `None` (absent), whose `resources` is the empty
sequence, and whose `outputs` is `None`. -/
theorem c6_decode_with_empty_resources :
    decodeArmTemplate c6docWithResources =
      .ok ⟨some [("functionAppName".data, ⟨"string".data, Option.none⟩)],
           Option.none, [], Option.none⟩ :=
  rfl

set_option maxRecDepth 100000 in
/-- C7 counterexample: the claim says input nested beyond the configured
recursion bound (64 levels) yields a `RecursionLimit` error.  The code
has no recursion limit and no such error: `nestS 65`, an expression
nested 65 levels deep, parses successfully to its 65-level AST. -/
theorem c7_deep_nesting_parses_successfully :
    parse_expression (nestS 65) = .ok (nestAST 65) :=
  rfl

/-- C7 (amended): the parser has no recursion-depth limit and no
`RecursionLimit` error, and deeply nested input parses successfully
rather than being rejected.  Its recursion is nonetheless bounded:
every recursive call is on a strictly shorter string, so recursion
depth `input.length + 1` always suffices — which is this statement,
since `parse_expression` runs the fuel-indexed model at exactly that
depth and never exhausts it. -/
theorem c7_recursion_depth_bounded_by_length (value : List Char) :
    (parse_expression value).isStuck = false :=
  parseF_not_stuck (value.length + 1) value (by omega)


/-- Evaluation of the `parameters(` match arm on a name of length at least
two: the source's slice arithmetic keeps the name minus its first and
last character. -/
theorem parse_parameters_paren (a b : Char) (rest : List Char) :
    parse_expression ("parameters(".data ++ (a :: b :: rest) ++ ")".data) =
      .ok (.Parameter ((b :: rest).take rest.length)) := by
  have hv : "parameters(".data ++ (a :: b :: rest) ++ ")".data =
      'p' :: 'a' :: 'r' :: 'a' :: 'm' :: 'e' :: 't' :: 'e' :: 'r' :: 's' :: '(' :: a :: b :: (rest ++ [')']) := rfl
  rw [hv]
  rw [parse_expression]
  simp only [parseF]
  simp [startsWith]
  unfold rustSlice
  rw [if_pos]
  · have hd : List.drop 12
        ('p' :: 'a' :: 'r' :: 'a' :: 'm' :: 'e' :: 't' :: 'e' :: 'r' :: 's' :: '(' :: a :: b :: (rest ++ [')'])) =
        b :: (rest ++ [')']) := rfl
    rw [hd]
    have hi : rest.length + 12 - 12 = rest.length := by omega
    rw [hi]
    rw [show b :: (rest ++ [')']) = (b :: rest) ++ [')'] from rfl]
    rw [List.take_append_of_le_length (by simp)]
  · constructor
    · omega
    · simp

/-- Evaluation of the `[parameters(` match arm on a name of length at least
two: the source's slice arithmetic keeps the name minus its first and
last character. -/
theorem parse_parameters_bracket (a b : Char) (rest : List Char) :
    parse_expression ("[parameters(".data ++ (a :: b :: rest) ++ ")]".data) =
      .ok (.Parameter ((b :: rest).take rest.length)) := by
  have hv : "[parameters(".data ++ (a :: b :: rest) ++ ")]".data =
      '[' :: 'p' :: 'a' :: 'r' :: 'a' :: 'm' :: 'e' :: 't' :: 'e' :: 'r' :: 's' :: '(' :: a :: b :: (rest ++ [')', ']']) := rfl
  rw [hv]
  rw [parse_expression]
  simp only [parseF]
  simp [startsWith]
  unfold rustSlice
  rw [if_pos]
  · have hd : List.drop 13
        ('[' :: 'p' :: 'a' :: 'r' :: 'a' :: 'm' :: 'e' :: 't' :: 'e' :: 'r' :: 's' :: '(' :: a :: b :: (rest ++ [')', ']'])) =
        b :: (rest ++ [')', ']']) := rfl
    rw [hd]
    have hi : rest.length + 13 - 13 = rest.length := by omega
    rw [hi]
    rw [show b :: (rest ++ [')', ']']) = (b :: rest) ++ [')', ']'] from rfl]
    rw [List.take_append_of_le_length (by simp)]
  · constructor
    · omega
    · simp

/-- Evaluation of the `variables(` match arm on a name of length at least
two: the source's slice arithmetic keeps the name minus its first and
last character. -/
theorem parse_variables_paren (a b : Char) (rest : List Char) :
    parse_expression ("variables(".data ++ (a :: b :: rest) ++ ")".data) =
      .ok (.Variable ((b :: rest).take rest.length)) := by
  have hv : "variables(".data ++ (a :: b :: rest) ++ ")".data =
      'v' :: 'a' :: 'r' :: 'i' :: 'a' :: 'b' :: 'l' :: 'e' :: 's' :: '(' :: a :: b :: (rest ++ [')']) := rfl
  rw [hv]
  rw [parse_expression]
  simp only [parseF]
  simp [startsWith]
  unfold rustSlice
  rw [if_pos]
  · have hd : List.drop 11
        ('v' :: 'a' :: 'r' :: 'i' :: 'a' :: 'b' :: 'l' :: 'e' :: 's' :: '(' :: a :: b :: (rest ++ [')'])) =
        b :: (rest ++ [')']) := rfl
    rw [hd]
    have hi : rest.length + 11 - 11 = rest.length := by omega
    rw [hi]
    rw [show b :: (rest ++ [')']) = (b :: rest) ++ [')'] from rfl]
    rw [List.take_append_of_le_length (by simp)]
  · constructor
    · omega
    · simp

/-- Evaluation of the `[variables(` match arm on a name of length at least
two: the source's slice arithmetic keeps the name minus its first and
last character. -/
theorem parse_variables_bracket (a b : Char) (rest : List Char) :
    parse_expression ("[variables(".data ++ (a :: b :: rest) ++ ")]".data) =
      .ok (.Variable ((b :: rest).take rest.length)) := by
  have hv : "[variables(".data ++ (a :: b :: rest) ++ ")]".data =
      '[' :: 'v' :: 'a' :: 'r' :: 'i' :: 'a' :: 'b' :: 'l' :: 'e' :: 's' :: '(' :: a :: b :: (rest ++ [')', ']']) := rfl
  rw [hv]
  rw [parse_expression]
  simp only [parseF]
  simp [startsWith]
  unfold rustSlice
  rw [if_pos]
  · have hd : List.drop 12
        ('[' :: 'v' :: 'a' :: 'r' :: 'i' :: 'a' :: 'b' :: 'l' :: 'e' :: 's' :: '(' :: a :: b :: (rest ++ [')', ']'])) =
        b :: (rest ++ [')', ']']) := rfl
    rw [hd]
    have hi : rest.length + 12 - 12 = rest.length := by omega
    rw [hi]
    rw [show b :: (rest ++ [')', ']']) = (b :: rest) ++ [')', ']'] from rfl]
    rw [List.take_append_of_le_length (by simp)]
  · constructor
    · omega
    · simp

/-- C3 counterexample: the claim says `"parameters(foo)"` and
`"[parameters(foo)]"` both parse to `Parameter("foo")`.  The source's
slice offsets assume a quoted name (`parameters('foo')`), so on the
unquoted name both forms yield `Parameter("o")` — the name with its
first and last characters removed — not `Parameter("foo")`. -/
theorem c3_unquoted_name_truncated :
    parse_expression ("parameters(foo)".data) = .ok (.Parameter ("o".data)) ∧
    parse_expression ("[parameters(foo)]".data) = .ok (.Parameter ("o".data)) :=
  ⟨rfl, rfl⟩

/-- C3 (amended): for every name of length at least two, the wrapped and
unwrapped spellings do parse identically — but to `Parameter`/`Variable`
of the name *minus its first and last character* (the code assumes a
quoted name), not of the name itself.  In particular the quoted
`parameters('foo')` and `[parameters('foo')]` both give
`Parameter("foo")`.  (Names shorter than two characters make the
source's slice out of range: both spellings then panic.) -/
theorem c3_bracket_equivalence_amended (n : List Char) (hn : 2 ≤ n.length) :
    parse_expression ("parameters(".data ++ n ++ ")".data) =
      .ok (.Parameter ((n.drop 1).take (n.length - 2))) ∧
    parse_expression ("[parameters(".data ++ n ++ ")]".data) =
      .ok (.Parameter ((n.drop 1).take (n.length - 2))) ∧
    parse_expression ("variables(".data ++ n ++ ")".data) =
      .ok (.Variable ((n.drop 1).take (n.length - 2))) ∧
    parse_expression ("[variables(".data ++ n ++ ")]".data) =
      .ok (.Variable ((n.drop 1).take (n.length - 2))) := by
  match n, hn with
  | a :: b :: rest, _ =>
    refine ⟨?_, ?_, ?_, ?_⟩
    · rw [parse_parameters_paren]; simp
    · rw [parse_parameters_bracket]; simp
    · rw [parse_variables_paren]; simp
    · rw [parse_variables_bracket]; simp

/-- Witness for `c3_bracket_equivalence_amended` at the quoted name
`'foo'`: both spellings of `parameters`/`variables` parse to the
`foo`-named node. -/
theorem c3_bracket_equivalence_amended_witness :
    2 ≤ ("'foo'".data).length ∧
    (parse_expression ("parameters('foo')".data) = .ok (.Parameter ("foo".data)) ∧
     parse_expression ("[parameters('foo')]".data) = .ok (.Parameter ("foo".data)) ∧
     parse_expression ("variables('foo')".data) = .ok (.Variable ("foo".data)) ∧
     parse_expression ("[variables('foo')]".data) = .ok (.Variable ("foo".data))) :=
  ⟨by decide, c3_bracket_equivalence_amended ("'foo'".data) (by decide)⟩


/-- If every element parse is free of `Number`/`Boolean` literals, so is
a successfully collected argument list. -/
theorem parseArgsWith_ok_numBoolFree {p : List Char → Res ArmExpression}
    {args : List (List Char)} {es : List ArmExpression}
    (h : ∀ a ∈ args, (p a).numBoolFreeRes = true)
    (he : parseArgsWith p args = .ok es) : numBoolFreeList es = true := by
  induction args generalizing es with
  | nil =>
    simp only [parseArgsWith] at he
    cases he
    rfl
  | cons a rest ih =>
    simp only [parseArgsWith] at he
    cases hpa : p a with
    | ok e =>
      rw [hpa] at he
      dsimp only at he
      cases hr : parseArgsWith p rest with
      | ok es2 =>
        rw [hr] at he
        dsimp only at he
        cases he
        have h1 := h a (List.mem_cons_self a rest)
        rw [hpa] at h1
        simp only [Res.numBoolFreeRes] at h1
        have h2 := ih (fun x hx => h x (List.mem_cons_of_mem a hx)) hr
        simp [numBoolFreeList, h1, h2]
      | err m => rw [hr] at he; simp at he
      | panic m => rw [hr] at he; simp at he
      | stuck => rw [hr] at he; simp at he
    | err m => rw [hpa] at he; simp at he
    | panic m => rw [hpa] at he; simp at he
    | stuck => rw [hpa] at he; simp at he

/-- The bracket arm never produces `Number`/`Boolean` literals when the
recursive parser does not: its only successful outcome wraps the
recursively parsed arguments in a `Function` node. -/
theorem parseBracketBranch_numBoolFree {recur : List Char → Res ArmExpression}
    {value : List Char} (h : ∀ a : List Char, (recur a).numBoolFreeRes = true) :
    (parseBracketBranch recur value).numBoolFreeRes = true := by
  unfold parseBracketBranch
  cases hf : rustFind value '(' with
  | none => simp [Res.numBoolFreeRes]
  | some fp =>
    cases hr : rustRfind value ')' with
    | none => simp [Res.numBoolFreeRes]
    | some lcp =>
      dsimp only
      cases h1 : rustSlice value 1 fp with
      | err m => simp [Res.bind, Res.numBoolFreeRes]
      | panic m => simp [Res.bind, Res.numBoolFreeRes]
      | stuck => simp [Res.bind, Res.numBoolFreeRes]
      | ok fns =>
        simp only [Res.bind]
        cases h2 : rustSlice value (fp + 1) lcp with
        | err m => simp [Res.bind, Res.numBoolFreeRes]
        | panic m => simp [Res.bind, Res.numBoolFreeRes]
        | stuck => simp [Res.bind, Res.numBoolFreeRes]
        | ok args_str =>
          simp only [Res.bind]
          cases h3 : parseArgsWith recur ((splitOnComma args_str).map trim) with
          | err m => simp [Res.bind, Res.numBoolFreeRes]
          | panic m => simp [Res.bind, Res.numBoolFreeRes]
          | stuck => simp [Res.bind, Res.numBoolFreeRes]
          | ok parsed_args =>
            simp only [Res.bind]
            have h4 := parseArgsWith_ok_numBoolFree (fun a _ => h a) h3
            repeat' split
            all_goals simp [Res.numBoolFreeRes, numBoolFree, h4]

/-- The parser never constructs a `Number` or `Boolean` literal anywhere
in its output, at any fuel. -/
theorem parseF_numBoolFree : ∀ (fuel : Nat) (value : List Char),
    (parseF fuel value).numBoolFreeRes = true := by
  intro fuel
  induction fuel with
  | zero => intro value; simp [parseF, Res.numBoolFreeRes]
  | succ f ih =>
    intro value
    rw [parseF]
    split
    · simp [Res.numBoolFreeRes, numBoolFree]
    split
    next =>
      cases h1 : rustSlice value 12 (value.length - 3) <;>
        simp [Res.numBoolFreeRes, numBoolFree]
    next =>
    split
    next =>
      cases h1 : rustSlice value 11 (value.length - 2) <;>
        simp [Res.numBoolFreeRes, numBoolFree]
    next =>
    split
    next =>
      cases h1 : rustSlice value 13 (value.length - 3) <;>
        simp [Res.numBoolFreeRes, numBoolFree]
    next =>
    split
    next =>
      cases h1 : rustSlice value 12 (value.length - 2) <;>
        simp [Res.numBoolFreeRes, numBoolFree]
    next =>
    split
    next => exact parseBracketBranch_numBoolFree (fun a => ih a)
    next =>
    split
    next =>
      cases h1 : rustSlice value 1 (value.length - 1) <;>
        simp [Res.numBoolFreeRes, numBoolFree]
    next => simp [Res.numBoolFreeRes, numBoolFree]

/-- The bracket arm can never return the `Reference` variant: its only
successful outcome is a `Function` node. -/
theorem parseBracketBranch_no_reference (recur : List Char → Res ArmExpression)
    (value : List Char) :
    (parseBracketBranch recur value).returnsReference = false := by
  unfold parseBracketBranch
  cases hf : rustFind value '(' with
  | none => simp [Res.returnsReference]
  | some fp =>
    cases hr : rustRfind value ')' with
    | none => simp [Res.returnsReference]
    | some lcp =>
      dsimp only
      cases h1 : rustSlice value 1 fp with
      | err m => simp [Res.bind, Res.returnsReference]
      | panic m => simp [Res.bind, Res.returnsReference]
      | stuck => simp [Res.bind, Res.returnsReference]
      | ok fns =>
        simp only [Res.bind]
        cases h2 : rustSlice value (fp + 1) lcp with
        | err m => simp [Res.bind, Res.returnsReference]
        | panic m => simp [Res.bind, Res.returnsReference]
        | stuck => simp [Res.bind, Res.returnsReference]
        | ok args_str =>
          simp only [Res.bind]
          cases h3 : parseArgsWith recur ((splitOnComma args_str).map trim) with
          | err m => simp [Res.bind, Res.returnsReference]
          | panic m => simp [Res.bind, Res.returnsReference]
          | stuck => simp [Res.bind, Res.returnsReference]
          | ok parsed_args =>
            simp only [Res.bind]
            repeat' split
            all_goals simp [Res.returnsReference]

/-- C10: for every input string, the parser never returns the
`Reference` variant of `ArmExpression` — every successful outcome of
every match arm is a `Literal`, `Function`, `Parameter`, `Variable` or
`None` node, so `Reference` (with its `api_version` field) is
constructible in the data model but unreachable as a parse result. -/
theorem c10_reference_never_parsed (value : List Char) :
    (parse_expression value).returnsReference = false := by
  rw [parse_expression, parseF]
  split
  · simp [Res.returnsReference]
  split
  next =>
    cases h1 : rustSlice value 12 (value.length - 3) <;> simp [Res.returnsReference]
  next =>
  split
  next =>
    cases h1 : rustSlice value 11 (value.length - 2) <;> simp [Res.returnsReference]
  next =>
  split
  next =>
    cases h1 : rustSlice value 13 (value.length - 3) <;> simp [Res.returnsReference]
  next =>
  split
  next =>
    cases h1 : rustSlice value 12 (value.length - 2) <;> simp [Res.returnsReference]
  next =>
  split
  next => exact parseBracketBranch_no_reference (parseF value.length) value
  next =>
  split
  next =>
    cases h1 : rustSlice value 1 (value.length - 1) <;> simp [Res.returnsReference]
  next => simp [Res.returnsReference]


/-- C8 counterexample: the claim says a float-parseable token becomes
`Literal(Number(...))` and `true`/`false` become `Literal(Boolean(...))`.
The code has no number or boolean handling at all: its fallback arm
wraps every bare token verbatim in `Literal(String(...))`, so `"true"`
parses to the *string* literal `"true"` (not a boolean literal) and
`"1.5"` to the string literal `"1.5"` (not a number). -/
theorem c8_numeric_boolean_tokens_stay_strings :
    parse_expression ("true".data) = .ok (.Literal (.String ("true".data))) ∧
    (parse_expression ("true".data)).isBooleanLiteral = false ∧
    parse_expression ("1.5".data) = .ok (.Literal (.String ("1.5".data))) :=
  ⟨rfl, rfl, rfl⟩

/-- C8 (amended): a token parseable as a 64-bit float, or equal to
`true`/`false`, is treated like every other bare token: it parses to
`Literal(String(token))` with the text kept verbatim, and the parser
never produces a `Number` or `Boolean` literal anywhere in any result,
at any fuel. -/
theorem c8_no_number_or_boolean_literals_amended :
    parse_expression ("1.5".data) = .ok (.Literal (.String ("1.5".data))) ∧
    parse_expression ("true".data) = .ok (.Literal (.String ("true".data))) ∧
    parse_expression ("false".data) = .ok (.Literal (.String ("false".data))) ∧
    ∀ (fuel : Nat) (value : List Char), (parseF fuel value).numBoolFreeRes = true :=
  ⟨rfl, rfl, rfl, parseF_numBoolFree⟩

/-- C9: every non-empty input that does not start with `[`, a single
quote, `parameters(` or `variables(` falls through to the source's
catch-all arm and parses to `Literal(String(input))`, the input kept
verbatim — the permissive string-literal fallback, not a syntax
error. -/
theorem c9_bare_token_literal_fallback (value : List Char)
    (h0 : value ≠ [])
    (h1 : startsWith value ("[".data) = false)
    (h2 : startsWith value ("'".data) = false)
    (h3 : startsWith value ("parameters(".data) = false)
    (h4 : startsWith value ("variables(".data) = false) :
    parse_expression value = .ok (.Literal (.String value)) := by
  have hbv : startsWith value ("[variables(".data) = false := by
    cases hsw : startsWith value ("[variables(".data) with
    | false => rfl
    | true =>
      have h5 : startsWith value ("[".data ++ "variables(".data) = true := hsw
      rw [startsWith_of_append h5] at h1
      exact absurd h1 (by simp)
  have hbp : startsWith value ("[parameters(".data) = false := by
    cases hsw : startsWith value ("[parameters(".data) with
    | false => rfl
    | true =>
      have h5 : startsWith value ("[".data ++ "parameters(".data) = true := hsw
      rw [startsWith_of_append h5] at h1
      exact absurd h1 (by simp)
  rw [parse_expression, parseF]
  simp [h0, h1, h2, h3, h4, hbv, hbp]

/-- Witness for `c9_bare_token_literal_fallback` at the bare token
`hello`. -/
theorem c9_bare_token_literal_fallback_witness :
    ("hello".data ≠ ([] : List Char)) ∧
    parse_expression ("hello".data) = .ok (.Literal (.String ("hello".data))) :=
  ⟨by decide,
   c9_bare_token_literal_fallback ("hello".data) (by decide) (by decide)
     (by decide) (by decide) (by decide)⟩

end Disarm
